import Mathlib

/-!
# Verification of `semantic_cloud.py` (russelldj/semantic_slam)

Shallow embedding of the fusion-and-decoding pipeline of
`semantic_cloud/src/semantic_cloud.py`, with theorems settling the spec's
claims about it.  Images, label maps and probability maps are embedded as
(nested) lists; probabilities are exact rationals; numpy integer arrays are
`Nat` values with the `uint8` cast made explicit as `% 256` where the source
casts.
-/

namespace SemanticCloud

/-! ## `remap_classes_bool_indexing` (semantic_cloud.py lines 34-45)

The source builds `output = ones_like(input_classes) * background_value`,
then for each `(i, v)` in `enumerate(remap)` overwrites `output` at the mask
`input_classes == i` with `v`. -/

/-- One masked assignment `output[input_classes == i] = v` of the loop body. -/
def maskAssign (input : List Nat) (i : Nat) (v : Nat) (output : List Nat) :
    List Nat :=
  List.zipWith (fun x o => if x = i then v else o) input output

/-- `remap_classes_bool_indexing(input_classes, remap, background_value)`:
fold of the masked assignments over `enumerate(remap)`, starting from the
background-filled array. -/
def remap_classes_bool_indexing (input_classes : List Nat) (remap : List Nat)
    (background_value : Nat := 7) : List Nat :=
  (remap.enum).foldl
    (fun output iv => maskAssign input_classes iv.1 iv.2 output)
    (input_classes.map (fun _ => background_value))

/-! ## `np.argmax` / `np.max` over the class axis (lines 379-380)

`np.argmax` returns the index of the first occurrence of the maximum. -/

/-- Accumulator pass of `np.argmax` over a 1-d slice: tracks the first index
attaining the running maximum. -/
def argmaxAux : List ℚ → Nat → Nat → ℚ → Nat
  | [], _, best, _ => best
  | x :: xs, i, best, bv =>
      if bv < x then argmaxAux xs (i + 1) i x else argmaxAux xs (i + 1) best bv

/-- `np.argmax` of a pixel's class-probability vector (first index attaining
the maximum; numpy's tie rule). -/
def np_argmax : List ℚ → Nat
  | [] => 0
  | x :: xs => argmaxAux xs 1 0 x

/-- `np.max` of a pixel's class-probability vector. -/
def np_max : List ℚ → ℚ
  | [] => 0
  | x :: xs => xs.foldl max x

/-- The argmax/max stage of `SemanticCloud.predict_max` (lines 379-380):
`pred_label = np.argmax(class_probs, axis=2)` and
`pred_confidence = np.max(class_probs, axis=2)` over an H×W×C probability
map. -/
def predict_max_stage (class_probs : List (List (List ℚ))) :
    List (List Nat) × List (List ℚ) :=
  (class_probs.map (fun row => row.map np_argmax),
   class_probs.map (fun row => row.map np_max))

/-- Every element of the running `foldl max` is bounded by the result. -/
theorem le_foldl_max (xs : List ℚ) (a : ℚ) : a ≤ xs.foldl max a := by
  induction xs generalizing a with
  | nil => exact le_refl a
  | cons x xs ih => exact le_trans (le_max_left a x) (ih (max a x))

/-- Members of the list are bounded by the `foldl max` result. -/
theorem mem_le_foldl_max {v : ℚ} {xs : List ℚ} (a : ℚ) (h : v ∈ xs) :
    v ≤ xs.foldl max a := by
  induction xs generalizing a with
  | nil => cases h
  | cons x xs ih =>
    rcases List.mem_cons.mp h with rfl | h
    · exact le_trans (le_max_right a v) (le_foldl_max xs (max a v))
    · exact ih (max a x) h

/-- Invariant of the `argmaxAux` pass: if `best` currently indexes value `bv`
in the full slice `l` and the remaining tail `xs` sits at offset `i` of `l`,
the returned index points at the maximum of `bv` and the tail. -/
theorem argmaxAux_get (xs : List ℚ) : ∀ (i best : Nat) (bv : ℚ) (l : List ℚ),
    l.get? best = some bv →
    (∀ j, xs.get? j = l.get? (i + j)) →
    l.get? (argmaxAux xs i best bv) = some (xs.foldl max bv) := by
  induction xs with
  | nil =>
    intro i best bv l hb _
    simpa [argmaxAux] using hb
  | cons x xs ih =>
    intro i best bv l hb hx
    have hxi : l.get? i = some x := by simpa using (hx 0).symm
    have hxs : ∀ j, xs.get? j = l.get? (i + 1 + j) := by
      intro j
      have h1 := hx (j + 1)
      rw [show i + (j + 1) = i + 1 + j by omega] at h1
      simpa using h1
    by_cases h : bv < x
    · have hmax : max bv x = x := max_eq_right h.le
      simpa [argmaxAux, h, hmax] using ih (i + 1) i x l hxi hxs
    · have hmax : max bv x = bv := max_eq_left (not_lt.mp h)
      simpa [argmaxAux, h, hmax] using ih (i + 1) best bv l hb hxs

/-- For a nonempty probability slice, `np_argmax` indexes a cell holding
`np_max` of the slice. -/
theorem np_argmax_get (pix : List ℚ) (h : pix ≠ []) :
    pix.get? (np_argmax pix) = some (np_max pix) := by
  match pix, h with
  | x :: xs, _ =>
    have hx : ∀ j, xs.get? j = (x :: xs).get? (1 + j) := by
      intro j
      simp [Nat.add_comm 1 j]
    exact argmaxAux_get xs 1 0 x (x :: xs) rfl hx

/-- `np_max` bounds every entry of the slice. -/
theorem np_max_is_max {v : ℚ} {pix : List ℚ} (h : v ∈ pix) : v ≤ np_max pix := by
  match pix, h with
  | x :: xs, h =>
    rcases List.mem_cons.mp h with rfl | h
    · exact le_foldl_max xs v
    · exact mem_le_foldl_max x h

/-- C1: In MaxConfidence mode, for every pixel of the probability map the
label computed by the argmax/max stage of `predict_max` equals the argmax of
that pixel's probabilities over the class axis (it indexes a cell holding the
maximum probability, which bounds every class probability), and the
confidence equals that maximum; concretely, a 2-class map whose pixel (0,0)
has probabilities [9/10, 1/10] gets label 0 with confidence 9/10. -/
theorem predict_max_argmax_spec :
    (∀ (pm : List (List (List ℚ))) (i j : Nat) (row : List (List ℚ))
        (pix : List ℚ),
        pm.get? i = some row → row.get? j = some pix → pix ≠ [] →
        ((predict_max_stage pm).1.get? i).bind (fun r => r.get? j) =
            some (np_argmax pix) ∧
        ((predict_max_stage pm).2.get? i).bind (fun r => r.get? j) =
            some (np_max pix) ∧
        pix.get? (np_argmax pix) = some (np_max pix) ∧
        ∀ v ∈ pix, v ≤ np_max pix)
    ∧ predict_max_stage [[[9/10, 1/10]]] = ([[0]], [[9/10]]) := by
  constructor
  · intro pm i j row pix hi hj hne
    rw [List.get?_eq_getElem?] at hi hj
    refine ⟨?_, ?_, np_argmax_get pix hne, fun v hv => np_max_is_max hv⟩
    · simp [predict_max_stage, List.get?_eq_getElem?, List.getElem?_map, hi, hj]
    · simp [predict_max_stage, List.get?_eq_getElem?, List.getElem?_map, hi, hj]
  · norm_num [predict_max_stage, np_argmax, np_max, argmaxAux]

/-- Witness for C1 at the concrete 1×1 probability map [[[9/10, 1/10]]]. -/
theorem predict_max_argmax_spec_witness :
    ((predict_max_stage [[[9/10, 1/10]]]).1.get? 0).bind (fun r => r.get? 0) =
        some (np_argmax [9/10, 1/10]) ∧
    ((predict_max_stage [[[9/10, 1/10]]]).2.get? 0).bind (fun r => r.get? 0) =
        some (np_max [9/10, 1/10]) ∧
    List.get? [9/10, 1/10] (np_argmax [9/10, 1/10]) =
        some (np_max [9/10, 1/10]) ∧
    ∀ v ∈ [(9 : ℚ)/10, 1/10], v ≤ np_max [9/10, 1/10] :=
  predict_max_argmax_spec.1 [[[9/10, 1/10]]] 0 0 [[9/10, 1/10]] [9/10, 1/10]
    rfl rfl (by simp)

/-- Pointwise effect of a single masked assignment. -/
theorem maskAssign_get (input : List Nat) :
    ∀ (output : List Nat) (k : Nat) (i v x o : Nat),
    input[k]? = some x → output[k]? = some o →
    (maskAssign input i v output)[k]? = some (if x = i then v else o) := by
  induction input with
  | nil => intro output k i v x o hx _; simp at hx
  | cons a input ih =>
    intro output k i v x o hx ho
    cases output with
    | nil => simp at ho
    | cons b output =>
      cases k with
      | zero =>
        simp at hx ho
        subst hx; subst ho
        simp [maskAssign]
      | succ k =>
        simp only [List.getElem?_cons_succ] at hx ho
        simpa only [maskAssign, List.zipWith_cons_cons,
          List.getElem?_cons_succ] using ih output k i v x o hx ho

/-- Invariant of the fold over `enumerate(remap)`: starting at offset `n`
with current cell value `o`, the cell holding raw index `x` ends up with the
table entry `remap[x - n]` when `x` falls in `[n, n + len)`, else stays `o`. -/
theorem foldl_maskAssign_get (input : List Nat) (rest : List Nat) :
    ∀ (n : Nat) (output : List Nat) (k x o : Nat),
    input[k]? = some x → output[k]? = some o →
    ((rest.enumFrom n).foldl
        (fun out iv => maskAssign input iv.1 iv.2 out) output)[k]? =
      some (if n ≤ x ∧ x - n < rest.length then rest.getD (x - n) o else o) := by
  induction rest with
  | nil =>
    intro n output k x o hx ho
    simp [List.enumFrom, ho]
  | cons v rest ih =>
    intro n output k x o hx ho
    have ho' : (maskAssign input n v output)[k]? =
        some (if x = n then v else o) :=
      maskAssign_get input output k n v x o hx ho
    have h2 := ih (n + 1) (maskAssign input n v output) k x
      (if x = n then v else o) hx ho'
    simp only [List.enumFrom, List.foldl_cons]
    rw [h2]
    by_cases hxn : x = n
    · subst hxn
      have hc1 : ¬(x + 1 ≤ x ∧ x - (x + 1) < rest.length) := by omega
      have hc2 : x ≤ x ∧ x - x < (v :: rest).length := by
        simp only [List.length_cons]
        omega
      rw [if_neg hc1, if_pos hc2, if_pos rfl]
      simp [Nat.sub_self]
    · rw [if_neg hxn]
      by_cases h1 : n + 1 ≤ x ∧ x - (n + 1) < rest.length
      · have hc2 : n ≤ x ∧ x - n < (v :: rest).length := by
          simp only [List.length_cons]
          omega
        rw [if_pos h1, if_pos hc2]
        have hs : x - n = (x - (n + 1)) + 1 := by omega
        rw [hs, List.getD_cons_succ]
      · have hc2 : ¬(n ≤ x ∧ x - n < (v :: rest).length) := by
          simp only [List.length_cons]
          omega
        rw [if_neg h1, if_neg hc2]

/-- C3: for every input label map, remap table and background id, the remap
operation is total (output has the input's length: no error is raised) and
replaces each pixel holding a raw index within the table's bounds with the
table entry at that index, and each pixel holding an out-of-bounds index
with the background id. -/
theorem remap_classes_spec :
    (∀ (input remap : List Nat) (bg : Nat),
        (remap_classes_bool_indexing input remap bg).length = input.length)
    ∧ (∀ (input remap : List Nat) (bg k x : Nat),
        input[k]? = some x →
        (remap_classes_bool_indexing input remap bg)[k]? =
          some (if x < remap.length then remap.getD x bg else bg)) := by
  constructor
  · intro input remap bg
    have hlen : ∀ (l : List (Nat × Nat)) (output : List Nat),
        output.length = input.length →
        (l.foldl (fun out iv => maskAssign input iv.1 iv.2 out) output).length
          = input.length := by
      intro l
      induction l with
      | nil => intro output h; exact h
      | cons p l ih =>
        intro output h
        rw [List.foldl_cons]
        apply ih
        simp [maskAssign]
        omega
    rw [remap_classes_bool_indexing]
    exact hlen _ _ (by simp)
  · intro input remap bg k x hx
    have ho : (input.map (fun _ => bg))[k]? = some bg := by
      rw [List.getElem?_map, hx]
      rfl
    have h := foldl_maskAssign_get input remap 0 (input.map fun _ => bg)
      k x bg hx ho
    rw [remap_classes_bool_indexing, List.enum, h]
    simp

/-- Witness for C3: spec scenario 4 — table [5, 7], background 7, pixel value
9 is out of bounds and maps to 7. -/
theorem remap_classes_spec_witness :
    (remap_classes_bool_indexing [0, 1, 9] [5, 7] 7)[2]? =
      some (if 9 < [5, 7].length then [5, 7].getD 9 7 else 7) :=
  remap_classes_spec.2 [0, 1, 9] [5, 7] 7 2 9 rfl

/-! ## `color_map` (semantic_cloud.py lines 48-71)

The source loops `j` over `range(8)`, OR-ing `bitget(c, 0..2) << (7 - j)`
into `r`, `g`, `b` and shifting `c` right by 3 each step; entries are stored
in a `uint8` (non-normalized) table. -/

/-- `bitget(byteval, idx)` from the source: `(byteval & (1 << idx)) != 0`. -/
def bitget (byteval idx : Nat) : Bool := (byteval &&& (1 <<< idx)) != 0

/-- One iteration of the `for j in range(8)` loop of `color_map`: state is
`((r, g, b), c)`. -/
def color_map_step (s : (Nat × Nat × Nat) × Nat) (j : Nat) :
    (Nat × Nat × Nat) × Nat :=
  ((s.1.1 ||| ((if bitget s.2 0 then 1 else 0) <<< (7 - j)),
    s.1.2.1 ||| ((if bitget s.2 1 then 1 else 0) <<< (7 - j)),
    s.1.2.2 ||| ((if bitget s.2 2 then 1 else 0) <<< (7 - j))),
   s.2 >>> 3)

/-- The (r, g, b) triple `color_map` computes for class index `i`. -/
def color_map_entry (i : Nat) : Nat × Nat × Nat :=
  ((List.range 8).foldl color_map_step ((0, 0, 0), i)).1

/-- `color_map(N)`: the N×3 color table (non-normalized branch). -/
def color_map (N : Nat) : List (Nat × Nat × Nat) :=
  (List.range N).map color_map_entry

/-- One channel of the spec-side formula: OR, over the 8 bit-planes `j`, of
bit `3*j + ch` of `i` placed at position `7 - j`. -/
def channelBits (i ch : Nat) : Nat :=
  (List.range 8).foldl
    (fun acc j => acc ||| ((if i.testBit (3 * j + ch) then 1 else 0) <<< (7 - j)))
    0

/-- Spec-side description of a color-map entry: the low three bits of `i` at
each of 8 bit-planes, distributed across the R, G, B channels. -/
def colorMapEntrySpec (i : Nat) : Nat × Nat × Nat :=
  (channelBits i 0, channelBits i 1, channelBits i 2)

/-- Reconstruction of the class index from an (r, g, b) triple: reads bit
`7 - j` of each channel back into bit positions `3*j`, `3*j+1`, `3*j+2`. -/
def color_map_inv (rgb : Nat × Nat × Nat) : Nat :=
  (List.range 8).foldl
    (fun acc j =>
      acc + ((if rgb.1.testBit (7 - j) then 1 else 0) <<< (3 * j))
          + ((if rgb.2.1.testBit (7 - j) then 1 else 0) <<< (3 * j + 1))
          + ((if rgb.2.2.testBit (7 - j) then 1 else 0) <<< (3 * j + 2)))
    0

/-- `bitget` reads the given bit. -/
theorem bitget_eq_testBit (c ch : Nat) : bitget c ch = c.testBit ch := by
  unfold bitget
  rw [Nat.shiftLeft_eq, one_mul, Nat.and_two_pow]
  cases h : c.testBit ch <;> simp [h]

/-- The source loop computes exactly the spec-side bit-distribution formula. -/
theorem color_map_entry_eq_spec (i : Nat) :
    color_map_entry i = colorMapEntrySpec i := by
  simp only [color_map_entry, colorMapEntrySpec, channelBits,
    show List.range 8 = [0, 1, 2, 3, 4, 5, 6, 7] from rfl,
    List.foldl_cons, List.foldl_nil, color_map_step, bitget_eq_testBit,
    Nat.testBit_shiftRight, Nat.shiftRight_add]

set_option maxRecDepth 100000 in
/-- The entry map is left-invertible on 8-bit class indices. -/
theorem color_map_inv_entry : ∀ i < 256, color_map_inv (color_map_entry i) = i := by
  decide

/-- C5: `color_map` is a pure function of the class count: entry `i` of the
table, for any `N` and any `i < N`, is exactly the spec-side triple obtained
by distributing the low three bits of `i` across the R, G, B channels over 8
bit-planes; and the entries of any two distinct class indices below 256 are
not bit-identical. -/
theorem color_map_pure_and_injective :
    (∀ (N i : Nat), i < N → (color_map N)[i]? = some (colorMapEntrySpec i))
    ∧ (∀ i j : Nat, i < 256 → j < 256 → i ≠ j →
        color_map_entry i ≠ color_map_entry j) := by
  constructor
  · intro N i hi
    rw [color_map, List.getElem?_map, List.getElem?_range hi]
    simp [color_map_entry_eq_spec]
  · intro i j hi hj hne heq
    have h1 := color_map_inv_entry i hi
    have h2 := color_map_inv_entry j hj
    rw [heq, h2] at h1
    exact hne h1.symm

/-- Witness for C5: entry 1 of the 2-class table, and distinctness of the
colors of classes 0 and 1. -/
theorem color_map_pure_and_injective_witness :
    (color_map 2)[1]? = some (colorMapEntrySpec 1) ∧
    color_map_entry 0 ≠ color_map_entry 1 :=
  ⟨color_map_pure_and_injective.1 2 1 (by decide),
   color_map_pure_and_injective.2 0 1 (by decide) (by decide) (by decide)⟩

/-! ## Extrinsics validation in `SemanticCloud.__init__` (lines 131-139)

The constructor raises `ValueError` if the parsed extrinsics are not 4×4,
then raises `ValueError` if `np.linalg.det` of the top-left 3×3 submatrix is
not `np.allclose` to 1 (default tolerances `rtol=1e-5`, `atol=1e-8`, so the
bound on `|det - 1|` is `1e-8 + 1e-5 * 1`). -/

/-- The two `ValueError`s the constructor can raise on bad extrinsics. -/
inductive CalibError where
  | wrongShape : CalibError
  | invalidRotation : ℚ → CalibError
deriving DecidableEq

/-- `self.extrinsics[:3, :3]`. -/
def topLeft3 (m : List (List ℚ)) : List (List ℚ) :=
  (m.take 3).map (fun r => r.take 3)

/-- Determinant of a 3×3 matrix by cofactor expansion; models
`np.linalg.det` on the top-left submatrix with exact arithmetic. -/
def det3 (m : List (List ℚ)) : ℚ :=
  let r0 := m.getD 0 []
  let r1 := m.getD 1 []
  let r2 := m.getD 2 []
  let a := r0.getD 0 0
  let b := r0.getD 1 0
  let c := r0.getD 2 0
  let d := r1.getD 0 0
  let e := r1.getD 1 0
  let f := r1.getD 2 0
  let g := r2.getD 0 0
  let h := r2.getD 1 0
  let i := r2.getD 2 0
  a * (e * i - f * h) - b * (d * i - f * g) + c * (d * h - e * g)

/-- `np.allclose` default tolerance against the target 1:
`atol + rtol * |1| = 1e-8 + 1e-5`. -/
def allcloseTol : ℚ := 1 / 100000000 + 1 / 100000

/-- The extrinsics checks of `SemanticCloud.__init__`: shape must be (4, 4),
then the determinant of the top-left 3×3 submatrix must be `np.allclose` to
1, else a `ValueError` carrying the determinant is raised. -/
def check_extrinsics (m : List (List ℚ)) : Except CalibError Unit :=
  if ¬ (m.length = 4 ∧ ∀ r ∈ m, r.length = 4) then
    Except.error CalibError.wrongShape
  else if ¬ |det3 (topLeft3 m) - 1| ≤ allcloseTol then
    Except.error (CalibError.invalidRotation (det3 (topLeft3 m)))
  else
    Except.ok ()

/-- Counterexample to C4: the shear matrix with top-left 3×3 =
[[1,1,0],[0,1,0],[0,0,1]] has determinant exactly 1, so validation
accepts it — a shear is not rejected. -/
theorem check_extrinsics_shear_accepted :
    det3 (topLeft3 [[1, 1, 0, 0], [0, 1, 0, 0], [0, 0, 1, 0], [0, 0, 0, 1]]) = 1
    ∧ check_extrinsics [[1, 1, 0, 0], [0, 1, 0, 0], [0, 0, 1, 0], [0, 0, 0, 1]]
        = Except.ok () := by
  constructor
  · norm_num [det3, topLeft3]
  · norm_num [check_extrinsics, det3, topLeft3, allcloseTol]

/-- C4 (amended): validation succeeds exactly when the extrinsics are 4×4
and the top-left 3×3 determinant is within `np.allclose` tolerance of 1;
the 4×4 identity passes, 2×identity is rejected with determinant 8, and a
reflection is rejected with determinant −1 (a shear of determinant 1,
however, passes). -/
theorem check_extrinsics_spec :
    (∀ m : List (List ℚ), check_extrinsics m = Except.ok () ↔
        (m.length = 4 ∧ (∀ r ∈ m, r.length = 4) ∧
          |det3 (topLeft3 m) - 1| ≤ allcloseTol))
    ∧ check_extrinsics
        [[1, 0, 0, 0], [0, 1, 0, 0], [0, 0, 1, 0], [0, 0, 0, 1]] = Except.ok ()
    ∧ check_extrinsics
        [[2, 0, 0, 0], [0, 2, 0, 0], [0, 0, 2, 0], [0, 0, 0, 2]]
        = Except.error (CalibError.invalidRotation 8)
    ∧ check_extrinsics
        [[-1, 0, 0, 0], [0, 1, 0, 0], [0, 0, 1, 0], [0, 0, 0, 1]]
        = Except.error (CalibError.invalidRotation (-1)) := by
  refine ⟨?_, ?_, ?_, ?_⟩
  · intro m
    unfold check_extrinsics
    split_ifs with h1 h2
    · exact iff_of_true rfl ⟨h1.1, h1.2, h2⟩
    · exact iff_of_false (by simp) (fun h => h2 h.2.2)
    · exact iff_of_false (by simp) (fun h => h1 ⟨h.1, h.2.1⟩)
  · norm_num [check_extrinsics, det3, topLeft3, allcloseTol]
  · norm_num [check_extrinsics, det3, topLeft3, allcloseTol]
  · norm_num [check_extrinsics, det3, topLeft3, allcloseTol]

/-- Witness for C4 (amended) at the 4×4 identity. -/
theorem check_extrinsics_spec_witness :
    check_extrinsics
        [[1, 0, 0, 0], [0, 1, 0, 0], [0, 0, 1, 0], [0, 0, 0, 1]]
        = Except.ok () ↔
      (([[1, 0, 0, 0], [0, 1, 0, 0], [0, 0, 1, 0], [0, 0, 0, 1]] :
          List (List ℚ)).length = 4 ∧
       (∀ r ∈ ([[1, 0, 0, 0], [0, 1, 0, 0], [0, 0, 1, 0], [0, 0, 0, 1]] :
          List (List ℚ)), r.length = 4) ∧
       |det3 (topLeft3 [[1, 0, 0, 0], [0, 1, 0, 0], [0, 0, 1, 0],
          [0, 0, 0, 1]]) - 1| ≤ allcloseTol) :=
  check_extrinsics_spec.1 [[1, 0, 0, 0], [0, 1, 0, 0], [0, 0, 1, 0], [0, 0, 0, 1]]

/-! ## `SemanticCloud.predict` (lines 449-478)

`predict` resizes the image (external `skimage.transform.resize`, smoothing),
casts to float, optionally reverses the channel axis (`np.flip(img, axis=2)`),
optionally flips both spatial axes (`np.flip(img, axis=(0,1))`), invokes the
external model, and, when the spatial flip was applied, flips the model
output back on both spatial axes. -/

/-- `np.flip(x, axis=(0,1))`: reverse both spatial axes of an H×W grid. -/
def flipBoth (img : List (List α)) : List (List α) :=
  (img.map List.reverse).reverse

/-- `np.flip(img, axis=2)`: reverse the channel axis of every pixel. -/
def flipChannels (img : List (List (List ℚ))) : List (List (List ℚ)) :=
  img.map (fun row => row.map List.reverse)

/-- A per-pixel model: applies `h` independently to every pixel (output
pixel (i, j) depends only on input pixel (i, j)). -/
def pixelwiseModel (h : List ℚ → List ℚ) (img : List (List (List ℚ))) :
    List (List (List ℚ)) :=
  img.map (fun row => row.map h)

/-- `SemanticCloud.predict`, with the external resize and the external
segmentation model abstracted as function parameters. -/
def predict (resizeF : List (List (List ℚ)) → List (List (List ℚ)))
    (model : List (List (List ℚ)) → List (List (List ℚ)))
    (flip_channels rotate_180 : Bool)
    (img : List (List (List ℚ))) : List (List (List ℚ)) :=
  let img1 := resizeF img
  let img2 := if flip_channels then flipChannels img1 else img1
  let img3 := if rotate_180 then flipBoth img2 else img2
  let outputs := model img3
  if rotate_180 then flipBoth outputs else outputs

/-- Flipping both spatial axes twice is the identity on pixel coordinates. -/
theorem flipBoth_flipBoth (img : List (List α)) :
    flipBoth (flipBoth img) = img := by
  simp [flipBoth, List.map_reverse, List.map_map, Function.comp_def]

/-- A per-pixel model commutes with the spatial flip. -/
theorem pixelwiseModel_flipBoth (h : List ℚ → List ℚ)
    (img : List (List (List ℚ))) :
    pixelwiseModel h (flipBoth img) = flipBoth (pixelwiseModel h img) := by
  simp [pixelwiseModel, flipBoth, List.map_reverse, List.map_map,
    Function.comp_def]

/-- C6: with `rotate_180` set, `predict` flips the image on both spatial
axes before the model call and flips the model output back afterwards; the
two flips compose to the identity, so for a per-pixel model the output
equals the unrotated pipeline's output (orientation matches the original
input), for either setting of the independent channel-order flag; with the
flag unset the pipeline applies no spatial flip at all. -/
theorem predict_rotate_180_spec :
    (∀ (img : List (List α)), flipBoth (flipBoth img) = img)
    ∧ (∀ (resizeF : List (List (List ℚ)) → List (List (List ℚ)))
        (h : List ℚ → List ℚ) (flip_channels : Bool)
        (img : List (List (List ℚ))),
        predict resizeF (pixelwiseModel h) flip_channels true img =
          predict resizeF (pixelwiseModel h) flip_channels false img)
    ∧ (∀ (resizeF model : List (List (List ℚ)) → List (List (List ℚ)))
        (img : List (List (List ℚ))),
        predict resizeF model false false img = model (resizeF img)) := by
  refine ⟨flipBoth_flipBoth, ?_, ?_⟩
  · intro resizeF h flip_channels img
    simp [predict, pixelwiseModel_flipBoth, flipBoth_flipBoth]
  · intro resizeF model img
    simp [predict]

/-! ## Nearest-neighbour label resize (lines 387-395 and 426-435)

`predict_max` and `predict_bayesian` resize label maps with
`skimage.transform.resize(..., order=0, mode="reflect", anti_aliasing=False,
preserve_range=True)`: order 0 is nearest-neighbour, so each output pixel is
a copy of one input pixel. -/

/-- The nearest-neighbour source index of output cell `i`: the input pixel
nearest to `(i + 1/2) * inSize/outSize - 1/2`, clamped into range (models
the order-0 coordinate map of `skimage.transform.resize`). -/
def nnIndex (inSize outSize i : Nat) : Nat :=
  min (inSize - 1) ((2 * i + 1) * inSize / (2 * outSize))

/-- Nearest-neighbour resize of a label map to `outH × outW` (models
`resize(label_map, (h, w), order=0, anti_aliasing=False,
preserve_range=True)`). -/
def resizeNN (outH outW : Nat) (img : List (List Nat)) : List (List Nat) :=
  (List.range outH).map (fun i =>
    (List.range outW).map (fun j =>
      (img.getD (nnIndex img.length outH i) []).getD
        (nnIndex (img.headD []).length outW j) 0))

/-- The nearest-neighbour index stays in range. -/
theorem nnIndex_lt (inSize outSize i : Nat) (h : 0 < inSize) :
    nnIndex inSize outSize i < inSize :=
  Nat.lt_of_le_of_lt (Nat.min_le_left _ _) (by omega)

/-- C7: for every nonempty rectangular label map, every pixel value of the
nearest-neighbour resize to any target resolution already occurs in the
input map — no class id absent from the input appears in the output. -/
theorem resizeNN_no_new_values (img : List (List Nat)) (outH outW : Nat)
    (hne : img ≠ [])
    (hrect : ∀ row ∈ img, row.length = (img.headD []).length)
    (hw : (img.headD []).length ≠ 0) :
    ∀ v : Nat, v ∈ (resizeNN outH outW img).flatten → v ∈ img.flatten := by
  intro v hv
  rw [List.mem_flatten] at hv
  obtain ⟨row', hrow', hvrow'⟩ := hv
  rw [resizeNN] at hrow'
  obtain ⟨i, _, rfl⟩ := List.mem_map.mp hrow'
  obtain ⟨j, _, rfl⟩ := List.mem_map.mp hvrow'
  have hH : 0 < img.length := List.length_pos.mpr hne
  have hci : nnIndex img.length outH i < img.length := nnIndex_lt _ _ _ hH
  have hrowmem : img.getD (nnIndex img.length outH i) [] ∈ img := by
    rw [List.getD_eq_getElem img [] hci]
    exact List.getElem_mem hci
  have hcj : nnIndex (img.headD []).length outW j <
      (img.getD (nnIndex img.length outH i) []).length := by
    rw [hrect _ hrowmem]
    exact nnIndex_lt _ _ _ (Nat.pos_of_ne_zero hw)
  rw [List.mem_flatten]
  refine ⟨img.getD (nnIndex img.length outH i) [], hrowmem, ?_⟩
  rw [List.getD_eq_getElem _ 0 hcj]
  exact List.getElem_mem hcj

/-- Witness for C7: a 2×2 map resized to 3×3 only contains the original
values; in particular 5 is a value of the input. -/
theorem resizeNN_no_new_values_witness : 5 ∈ ([[5, 6], [7, 8]] : List (List Nat)).flatten :=
  resizeNN_no_new_values [[5, 6], [7, 8]] 3 3 (by decide) (by decide) (by decide)
    5 (by decide)

/-! ## `torch.topk` stage of `SemanticCloud.predict_bayesian` (lines 407-424)

`predict_bayesian` takes, per pixel, the top `k=3` classes with
`torch.topk(..., dim=2, largest=True, sorted=True)`: values in descending
order, ties resolved toward the lower class index (the stable behaviour of
the CPU implementation). We model the per-pixel selection as the first `k`
entries of the total order "higher value first, lower index first on
ties". -/

/-- The ranking `torch.topk(largest=True, sorted=True)` realises on
(index, value) pairs: strictly larger value first, equal values ordered by
ascending index. -/
def topkRel (a b : Nat × ℚ) : Prop := b.2 < a.2 ∨ (a.2 = b.2 ∧ a.1 ≤ b.1)

instance : DecidableRel topkRel := fun a b => by
  unfold topkRel
  infer_instance

instance : IsTotal (Nat × ℚ) topkRel where
  total a b := by
    unfold topkRel
    rcases lt_trichotomy a.2 b.2 with h | h | h
    · exact Or.inr (Or.inl h)
    · rcases Nat.le_total a.1 b.1 with h' | h'
      · exact Or.inl (Or.inr ⟨h, h'⟩)
      · exact Or.inr (Or.inr ⟨h.symm, h'⟩)
    · exact Or.inl (Or.inl h)

instance : IsTrans (Nat × ℚ) topkRel where
  trans a b c hab hbc := by
    unfold topkRel at *
    rcases hab with h1 | ⟨h1, h1'⟩ <;> rcases hbc with h2 | ⟨h2, h2'⟩
    · exact Or.inl (lt_trans h2 h1)
    · exact Or.inl (h2 ▸ h1)
    · exact Or.inl (h1 ▸ h2)
    · exact Or.inr ⟨h1.trans h2, h1'.trans h2'⟩

/-- `torch.topk(input, k, largest=True, sorted=True)` on one pixel's class
vector: the values and raw class indices of the first `k` entries in
`topkRel` order. -/
def torch_topk (l : List ℚ) (k : Nat) : List ℚ × List Nat :=
  let sorted := List.insertionSort topkRel l.enum
  ((sorted.take k).map Prod.snd, (sorted.take k).map Prod.fst)

/-- Every pair appearing in the sorted enumeration reads back its value from
the pixel vector. -/
theorem mem_topkSorted_getD (pix : List ℚ) (p : Nat × ℚ)
    (hp : p ∈ List.insertionSort topkRel pix.enum) :
    pix.getD p.1 0 = p.2 ∧ p.1 < pix.length := by
  have hmem : p ∈ pix.enum := (List.perm_insertionSort topkRel pix.enum).mem_iff.mp hp
  have h : pix[p.1]? = some p.2 := by
    have := List.mk_mem_enum_iff_getElem?.mp (by simpa using hmem)
    simpa using this
  constructor
  · rw [List.getD_eq_getElem?_getD, h]
    rfl
  · exact (List.getElem?_eq_some.mp h).1

/-- The indices of the sorted enumeration are pairwise distinct. -/
theorem topkSorted_fst_pairwise_ne (pix : List ℚ) :
    List.Pairwise (fun a b : Nat × ℚ => a.1 ≠ b.1)
      (List.insertionSort topkRel pix.enum) := by
  have hperm : List.Perm ((List.insertionSort topkRel pix.enum).map Prod.fst)
      (pix.enum.map Prod.fst) :=
    (List.perm_insertionSort topkRel pix.enum).map Prod.fst
  have hnd : List.Nodup ((List.insertionSort topkRel pix.enum).map Prod.fst) := by
    rw [List.Perm.nodup_iff hperm, List.enum_map_fst]
    exact List.nodup_range _
  exact List.pairwise_map.mp hnd

/-- C2: per pixel, the BayesianTopK selection stage returns confidences
sorted in descending order; every unselected class has strictly lower
probability than each selected class, or equal probability and a strictly
higher raw index; and within the selection, equal-probability classes are
ranked with the lower raw index first. -/
theorem predict_bayesian_topk_spec (pix : List ℚ) :
    ((torch_topk pix 3).1.Sorted (· ≥ ·))
    ∧ (∀ i ∈ (torch_topk pix 3).2, ∀ j, j < pix.length →
        j ∉ (torch_topk pix 3).2 →
        pix.getD j 0 < pix.getD i 0 ∨ (pix.getD i 0 = pix.getD j 0 ∧ i < j))
    ∧ List.Pairwise
        (fun i j => pix.getD j 0 < pix.getD i 0 ∨
          (pix.getD i 0 = pix.getD j 0 ∧ i < j)) (torch_topk pix 3).2 := by
  set s := List.insertionSort topkRel pix.enum with hs
  have hsorted : List.Pairwise topkRel s := List.sorted_insertionSort topkRel pix.enum
  have hne := topkSorted_fst_pairwise_ne pix
  have htake : List.Pairwise topkRel (s.take 3) :=
    hsorted.sublist (List.take_sublist 3 s)
  have hnetake : List.Pairwise (fun a b : Nat × ℚ => a.1 ≠ b.1) (s.take 3) :=
    hne.sublist (List.take_sublist 3 s)
  refine ⟨?_, ?_, ?_⟩
  · rw [torch_topk]
    rw [List.Sorted, List.pairwise_map]
    refine htake.imp ?_
    intro a b hab
    rcases hab with h | ⟨h, _⟩
    · exact le_of_lt h
    · exact le_of_eq h.symm
  · intro i hi j hj hjnot
    obtain ⟨p, hp, hpi⟩ := List.mem_map.mp hi
    have hq : (j, pix.getD j 0) ∈ s := by
      apply (List.perm_insertionSort topkRel pix.enum).mem_iff.mpr
      apply List.mk_mem_enum_iff_getElem?.mpr
      rw [List.getD_eq_getElem?_getD, List.getElem?_eq_getElem hj]
      rfl
    have hqsplit : (j, pix.getD j 0) ∈ s.take 3 ++ s.drop 3 := by
      rw [List.take_append_drop]
      exact hq
    have hqdrop : (j, pix.getD j 0) ∈ s.drop 3 := by
      rcases List.mem_append.mp hqsplit with h | h
      · exact absurd (List.mem_map.mpr ⟨(j, pix.getD j 0), h, rfl⟩) hjnot
      · exact h
    have hsortsplit : List.Pairwise topkRel (s.take 3 ++ s.drop 3) := by
      rw [List.take_append_drop]
      exact hsorted
    have hnesplit :
        List.Pairwise (fun a b : Nat × ℚ => a.1 ≠ b.1) (s.take 3 ++ s.drop 3) := by
      rw [List.take_append_drop]
      exact hne
    have hcross : topkRel p (j, pix.getD j 0) :=
      (List.pairwise_append.mp hsortsplit).2.2 p hp _ hqdrop
    have hnecross : p.1 ≠ j :=
      (List.pairwise_append.mp hnesplit).2.2 p hp _ hqdrop
    have hpval : pix.getD p.1 0 = p.2 :=
      (mem_topkSorted_getD pix p ((List.take_sublist 3 s).mem hp)).1
    rcases hcross with h | ⟨h, h'⟩
    · left
      rw [hpi] at hpval
      rw [hpval]
      exact h
    · right
      rw [hpi] at hpval h'
      refine ⟨by rw [hpval, h], ?_⟩
      rw [hpi] at hnecross
      omega
  · rw [torch_topk]
    rw [List.pairwise_map]
    have hcomb := htake.and hnetake
    refine hcomb.imp_of_mem ?_
    intro a b ha hb hab
    have hav : pix.getD a.1 0 = a.2 :=
      (mem_topkSorted_getD pix a ((List.take_sublist 3 s).mem ha)).1
    have hbv : pix.getD b.1 0 = b.2 :=
      (mem_topkSorted_getD pix b ((List.take_sublist 3 s).mem hb)).1
    rcases hab.1 with h | ⟨h, h'⟩
    · left
      rw [hav, hbv]
      exact h
    · right
      refine ⟨by rw [hav, hbv, h], ?_⟩
      have := hab.2
      omega

/-- Witness for C2 at the pixel vector [1/2, 1/2, 1/4, 1/3]: the selection
is classes 0, 1, 3 (the tie between classes 0 and 1 keeps index 0 first),
and the unselected class 2 compares below the selected class 0. -/
theorem predict_bayesian_topk_spec_witness :
    ((torch_topk [1/2, 1/2, 1/4, 1/3] 3).1.Sorted (· ≥ ·))
    ∧ (([1/2, 1/2, 1/4, 1/3] : List ℚ).getD 2 0 <
          ([1/2, 1/2, 1/4, 1/3] : List ℚ).getD 0 0
        ∨ (([1/2, 1/2, 1/4, 1/3] : List ℚ).getD 0 0 =
              ([1/2, 1/2, 1/4, 1/3] : List ℚ).getD 2 0
            ∧ 0 < 2)) :=
  ⟨(predict_bayesian_topk_spec [1/2, 1/2, 1/4, 1/3]).1,
   (predict_bayesian_topk_spec [1/2, 1/2, 1/4, 1/3]).2.1 0
     (by norm_num [torch_topk, List.insertionSort, List.orderedInsert, topkRel,
        List.enum, List.enumFrom])
     2 (by norm_num)
     (by norm_num [torch_topk, List.insertionSort, List.orderedInsert, topkRel,
        List.enum, List.enumFrom])⟩

/-! ## Point-type dispatch in `SemanticCloud.__init__` (lines 110-122)

The constructor reads `/semantic_pcl/point_type` and dispatches: 0 → COLOR,
1 → SEMANTICS_MAX, 2 → SEMANTICS_BAYESIAN; anything else prints
"Invalid point type." and executes a plain `return` from `__init__` —
no exception is raised. -/

/-- The three fusion modes of `PointType`. -/
inductive PointType where
  | COLOR : PointType
  | SEMANTICS_MAX : PointType
  | SEMANTICS_BAYESIAN : PointType
deriving DecidableEq

/-- What the head of `__init__` does with the configured point type:
continue construction with a mode, return early (after printing), or raise
an exception. -/
inductive InitDispatch where
  | proceed : PointType → InitDispatch
  | earlyReturn : InitDispatch
  | raiseError : String → InitDispatch
deriving DecidableEq

/-- The point-type dispatch at the top of `SemanticCloud.__init__`. -/
def dispatch_point_type (p : Int) : InitDispatch :=
  if p = 0 then InitDispatch.proceed PointType.COLOR
  else if p = 1 then InitDispatch.proceed PointType.SEMANTICS_MAX
  else if p = 2 then InitDispatch.proceed PointType.SEMANTICS_BAYESIAN
  else InitDispatch.earlyReturn

/-- Counterexample to C8: with the invalid point type 3 the constructor
performs a plain early return (after printing), which is not a raised
fatal configuration error. -/
theorem dispatch_point_type_invalid_not_fatal :
    dispatch_point_type 3 = InitDispatch.earlyReturn ∧
    InitDispatch.earlyReturn ≠ InitDispatch.raiseError "Invalid point type." := by
  refine ⟨by decide, by simp⟩

/-- C8 (amended): an unrecognized fusion mode makes `__init__` print a
message and return early, so no mode is ever configured and no pipeline is
set up — but construction never raises an error for any configured value. -/
theorem dispatch_point_type_spec :
    (∀ p : Int, dispatch_point_type p = InitDispatch.earlyReturn ↔
        ¬(p = 0 ∨ p = 1 ∨ p = 2))
    ∧ (∀ p : Int, dispatch_point_type p = InitDispatch.earlyReturn ∨
        ∃ pt, dispatch_point_type p = InitDispatch.proceed pt) := by
  constructor
  · intro p
    unfold dispatch_point_type
    split_ifs with h1 h2 h3 <;> simp_all
  · intro p
    unfold dispatch_point_type
    split_ifs <;> simp

/-- Witness for C8 (amended) at the invalid point type 5. -/
theorem dispatch_point_type_spec_witness :
    (dispatch_point_type 5 = InitDispatch.earlyReturn ↔
        ¬((5 : Int) = 0 ∨ (5 : Int) = 1 ∨ (5 : Int) = 2))
    ∧ (dispatch_point_type 5 = InitDispatch.earlyReturn ∨
        ∃ pt, dispatch_point_type 5 = InitDispatch.proceed pt) :=
  ⟨dispatch_point_type_spec.1 5, dispatch_point_type_spec.2 5⟩

/-! ## Decode stage of `SemanticCloud.color_lidar_callback` (lines 310-319)

The callback wraps the two `ros_numpy.numpify` calls in
`try: ... except CvBridgeError as e: print(e)` — and then proceeds
unconditionally to `lidar_points = np.stack((lidar["x"], ...))`.  When a
decode raised `CvBridgeError`, the locals `color_img`/`lidar` were never
bound, so the callback hits a `NameError`; any other exception type is not
caught at all. -/

/-- Exceptions a decode call can raise. -/
inductive PyError where
  | cvBridgeError : String → PyError
  | otherError : String → PyError
deriving DecidableEq

/-- How one invocation of the callback's decode stage ends. -/
inductive CallbackOutcome where
  | proceeds : CallbackOutcome
  | nameErrorCrash : CallbackOutcome
  | uncaughtException : PyError → CallbackOutcome
deriving DecidableEq

/-- The decode stage of `color_lidar_callback`: the image then the scan are
decoded inside one `try`; a `CvBridgeError` is printed but control then
falls through to the `np.stack` line whose operand was never bound
(`NameError`); any other exception escapes the handler. -/
def color_lidar_callback_decode
    (colorRes lidarRes : Except PyError Unit) : CallbackOutcome :=
  match colorRes with
  | Except.error (PyError.cvBridgeError _) => CallbackOutcome.nameErrorCrash
  | Except.error e => CallbackOutcome.uncaughtException e
  | Except.ok _ =>
    match lidarRes with
    | Except.error (PyError.cvBridgeError _) => CallbackOutcome.nameErrorCrash
    | Except.error e => CallbackOutcome.uncaughtException e
    | Except.ok _ => CallbackOutcome.proceeds

/-- C9 at the failing input: a frame whose image decode raises
`CvBridgeError` is logged but then crashes the callback with a `NameError`
instead of being dropped cleanly. -/
theorem color_lidar_callback_decode_failure_crashes :
    color_lidar_callback_decode
        (Except.error (PyError.cvBridgeError "bad encoding")) (Except.ok ())
      = CallbackOutcome.nameErrorCrash ∧
    CallbackOutcome.nameErrorCrash ≠ CallbackOutcome.proceeds := by
  refine ⟨rfl, by simp⟩

/-! ## `decode_segmap` (semantic_cloud.py lines 74-93)

The source copies `temp` into `r`, `g`, `b`, loops `l` over
`range(n_classes)` doing the masked overwrites `r[temp == l] = cmap[l, 0]`
(and similarly for `g`, `b` from columns 1 and 2), stacks the channels as
`bgr[..., 0] = b`, `bgr[..., 1] = g`, `bgr[..., 2] = r`, and finally casts
with `astype(np.uint8)` — a reduction modulo 256. -/

/-- Per-pixel effect of the masked channel loop: the channel array starts as
a copy of `temp` and iteration `l` overwrites cells where `temp == l` with
`pick l`. -/
def channel_loop (t n : Nat) (pick : Nat → Nat) : Nat :=
  (List.range n).foldl (fun cur l => if t = l then pick l else cur) t

/-- `decode_segmap(temp, n_classes, cmap)`: per pixel, the three channel
loops followed by the (b, g, r) stacking and the `uint8` cast. -/
def decode_segmap (temp : List (List Nat)) (n_classes : Nat)
    (cmap : List (Nat × Nat × Nat)) : List (List (Nat × Nat × Nat)) :=
  temp.map (fun row => row.map (fun t =>
    let r := channel_loop t n_classes (fun l => (cmap.getD l (0, 0, 0)).1)
    let g := channel_loop t n_classes (fun l => (cmap.getD l (0, 0, 0)).2.1)
    let b := channel_loop t n_classes (fun l => (cmap.getD l (0, 0, 0)).2.2)
    (b % 256, g % 256, r % 256)))

/-- Closed form of the masked channel loop: labels below `n` pick the
palette value, others keep the label. -/
theorem channel_loop_eq (t n : Nat) (pick : Nat → Nat) :
    channel_loop t n pick = if t < n then pick t else t := by
  induction n with
  | zero => simp [channel_loop]
  | succ n ih =>
    rw [channel_loop, List.range_succ, List.foldl_append]
    rw [show (List.range n).foldl (fun cur l => if t = l then pick l else cur) t
        = channel_loop t n pick from rfl, ih]
    simp only [List.foldl_cons, List.foldl_nil]
    by_cases h1 : t = n
    · subst h1
      simp
    · by_cases h2 : t < n
      · rw [if_neg h1, if_pos h2, if_pos (by omega)]
      · rw [if_neg h1, if_neg h2, if_neg (by omega)]

/-- Counterexample to C10: with one class, label 300 is out of range but the
`uint8` cast makes the output pixel (44, 44, 44), not (300, 300, 300): an
out-of-range label is not passed through unchanged. -/
theorem decode_segmap_truncates_out_of_range :
    decode_segmap [[300]] 1 (color_map 1) = [[(44, 44, 44)]] ∧ (44 : Nat) ≠ 300 := by
  refine ⟨?_, by decide⟩
  rw [decode_segmap]
  simp [channel_loop_eq]

/-- C10 (amended): each pixel with label `l` below `n_classes` maps to the
BGR triple (cmap[l,2], cmap[l,1], cmap[l,0]) (reduced mod 256 by the uint8
cast, which leaves the 8-bit palette values unchanged); each pixel with
label outside `[0, n_classes)` passes through as the triple
(l % 256, l % 256, l % 256) — unchanged only when `l < 256`, and never
mapped to a background or error color. -/
theorem decode_segmap_spec :
    ∀ (temp : List (List Nat)) (n : Nat) (cmap : List (Nat × Nat × Nat))
      (i j t : Nat) (row : List Nat),
      temp[i]? = some row → row[j]? = some t →
      ((decode_segmap temp n cmap)[i]?).bind (fun r => r[j]?) =
        some (if t < n then
            ((cmap.getD t (0, 0, 0)).2.2 % 256,
             (cmap.getD t (0, 0, 0)).2.1 % 256,
             (cmap.getD t (0, 0, 0)).1 % 256)
          else (t % 256, t % 256, t % 256)) := by
  intro temp n cmap i j t row hi hj
  rw [decode_segmap, List.getElem?_map, hi]
  simp only [Option.map_some', Option.some_bind]
  rw [List.getElem?_map, hj]
  simp only [Option.map_some']
  rw [channel_loop_eq, channel_loop_eq, channel_loop_eq]
  by_cases h : t < n
  · simp [h]
  · simp [h]

/-- Witness for C10 (amended): class 0 of a 2-class map decodes to the BGR
reversal of palette entry 0, and the out-of-range label 9 maps to (9,9,9). -/
theorem decode_segmap_spec_witness :
    ((decode_segmap [[9]] 2 (color_map 2))[0]?).bind (fun r => r[0]?) =
      some (if 9 < 2 then
          (((color_map 2).getD 9 (0, 0, 0)).2.2 % 256,
           ((color_map 2).getD 9 (0, 0, 0)).2.1 % 256,
           ((color_map 2).getD 9 (0, 0, 0)).1 % 256)
        else (9 % 256, 9 % 256, 9 % 256)) :=
  decode_segmap_spec [[9]] 2 (color_map 2) 0 0 9 [9] rfl rfl

end SemanticCloud
